import Mathlib

/-
Verification development for wp-check, a scanner that walks a directory
tree for on-disk WordPress installations, extracts core and plugin
versions, and compares them against the versions published on the
WordPress web site.

The Python source (wp-check.py) is shallowly embedded below.  Filesystem
access, HTTP responses and the two third-party page parsers
(BeautifulSoup results, dateutil date parsing) are modelled as explicit
data handed to the embedded functions; the regular-expression searches
performed by the source are implemented directly as character-list
scanners with the semantics of the concrete patterns the source uses.
Printing is modelled as returning the list of printed lines, and the
Python exceptions that can escape the releases-page parser are modelled
with Except.
-/

set_option maxRecDepth 8000

namespace WpCheck

/-- The single-quote character used by the wp version pattern. -/
def quoteChar : Char := Char.ofNat 39

/-- The Python regex whitespace class: space, tab, newline, carriage
return, vertical tab, form feed. -/
def isWsChar (c : Char) : Bool :=
  c = ' ' || c = '\t' || c = '\n' || c = '\r' || c = '\x0b' || c = '\x0c'

/-- Does the first list occur as a prefix of the second. -/
def startsWithL : List Char → List Char → Bool
  | [], _ => true
  | _ :: _, [] => false
  | p :: ps, c :: cs => p = c && startsWithL ps cs

/-- Substring containment on character lists. -/
def containsSubL (p : List Char) : List Char → Bool
  | [] => startsWithL p []
  | c :: cs => startsWithL p (c :: cs) || containsSubL p cs

/-- Models Python (s.find(pat) != -1): pat occurs somewhere in s. -/
def containsSub (s pat : String) : Bool := containsSubL pat.toList s.toList

/-- Does s end with the given suffix (models str.endswith). -/
def strEndsWith (s suffix : String) : Bool :=
  startsWithL suffix.toList.reverse s.toList.reverse

/-- Number of leading whitespace characters: the greedy whitespace-star. -/
def wsCount : List Char → Nat
  | [] => 0
  | c :: cs => if isWsChar c then wsCount cs + 1 else 0

/-- Characters up to the end of the current line (the regex dot cannot
match a newline). -/
def takeNotNl (s : List Char) : List Char := s.takeWhile (fun c => c ≠ '\n')

/-- Index of the last character that is not a newline, if any. -/
def lastNonNlIdx : List Char → Option Nat
  | [] => none
  | c :: cs =>
    match lastNonNlIdx cs with
    | some j => some (j + 1)
    | none => if c ≠ '\n' then some 0 else none

/-- Capture for the tail of a pattern of shape
LITERAL whitespace-star (.+?) dollar with the MULTILINE flag, applied to
the text t that follows the literal.  The greedy whitespace run is
skipped; if a character remains on some line the lazy dot-plus capture
extends exactly to the end of that line.  When the whole tail of t is
whitespace, the engine backtracks the whitespace-star to the last
character that is not a newline and captures from there.  Returns the
captured text and how many characters of t the rest of the match
consumed. -/
def capEol (t : List Char) : Option (List Char × Nat) :=
  let q := wsCount t
  match t.drop q with
  | _ :: _ =>
    let cap := takeNotNl (t.drop q)
    some (cap, q + cap.length)
  | [] =>
    match lastNonNlIdx (t.take q) with
    | some j =>
      let cap := takeNotNl (t.drop j)
      some (cap, j + cap.length)
    | none => none

/-- Capture for the tail of the pattern
Version: whitespace-star ([0-9.]+) used on the entry-meta text. -/
def capNum (t : List Char) : Option (List Char × Nat) :=
  let q := wsCount t
  let digits := (t.drop q).takeWhile (fun c => c.isDigit || c = '.')
  match digits with
  | [] => none
  | _ :: _ => some (digits, q + digits.length)

/-- Capture for the tail of the wp version assignment pattern:
whitespace-star = whitespace-star quote ([^quote]+) quote, applied to the
text following the literal dollar-wp_version. -/
def capWpVer (t : List Char) : Option (List Char × Nat) :=
  let q1 := wsCount t
  match t.drop q1 with
  | c :: t2 =>
    if c = '=' then
      let q2 := wsCount t2
      match t2.drop q2 with
      | c2 :: t3 =>
        if c2 = quoteChar then
          let cap := t3.takeWhile (fun ch => ch ≠ quoteChar)
          match t3.drop cap.length with
          | c3 :: _ =>
            if c3 = quoteChar then
              match cap with
              | [] => none
              | _ :: _ => some (cap, q1 + 1 + q2 + 1 + cap.length + 1)
            else none
          | [] => none
        else none
      | [] => none
    else none
  | [] => none

/-- Generic left-to-right non-overlapping scan implementing re.findall
for the literal-headed patterns used by the source: wherever the literal
l0 :: ls occurs, cap computes the capture and the length of the rest of
the match from the following text; on success the scan resumes after the
match, on failure one character past the occurrence.  The fuel argument
is the text length plus one; every step consumes at least one character,
so the fuel never runs out on the initial call. -/
def scanLit (l0 : Char) (ls : List Char) (cap : List Char → Option (List Char × Nat)) :
    Nat → List Char → List (List Char)
  | 0, _ => []
  | _ + 1, [] => []
  | fuel + 1, c :: cs =>
    if startsWithL (l0 :: ls) (c :: cs) then
      match cap (cs.drop ls.length) with
      | some (capture, k) =>
        capture :: scanLit l0 ls cap fuel ((cs.drop ls.length).drop k)
      | none => scanLit l0 ls cap fuel cs
    else scanLit l0 ls cap fuel cs

/-- re.findall for a literal-headed pattern over a string. -/
def findallL (lit : String) (cap : List Char → Option (List Char × Nat))
    (s : String) : List String :=
  match lit.toList with
  | [] => []
  | l0 :: ls => (scanLit l0 ls cap (s.toList.length + 1) s.toList).map String.mk

/-- re.findall of the MULTILINE pattern Plugin Name: ws-star (.+?) dollar. -/
def findallPluginName (code : String) : List String :=
  findallL "Plugin Name:" capEol code

/-- re.findall of the MULTILINE pattern Version: ws-star (.+?) dollar. -/
def findallVersionHeader (code : String) : List String :=
  findallL "Version:" capEol code

/-- re.findall of the pattern Version: ws-star ([0-9.]+). -/
def findallVersionNum (text : String) : List String :=
  findallL "Version:" capNum text

/-- re.findall of the pattern dollar-wp_version ws-star = ws-star
quote ([^quote]+) quote. -/
def findallWpVersion (code : String) : List String :=
  findallL "$wp_version" capWpVer code

/-- Modelled fragment of packaging.version: a strict version here is a
plain dotted release (optionally v-prefixed, surrounding whitespace
allowed); every other string is a legacy version.  packaging orders any
LegacyVersion below any Version; the order among legacy versions is
modelled as the string order (no claim depends on it). -/
inductive PackageVersion where
  | release : List Nat → PackageVersion
  | legacy : String → PackageVersion
deriving DecidableEq

/-- Split a character list on dots. -/
def splitDotsL : List Char → List (List Char)
  | [] => [[]]
  | c :: cs =>
    if c = '.' then [] :: splitDotsL cs
    else
      match splitDotsL cs with
      | g :: gs => (c :: g) :: gs
      | [] => [[c]]

/-- Nonempty and all decimal digits. -/
def allDigits (l : List Char) : Bool := !l.isEmpty && l.all Char.isDigit

/-- Decimal value of a digit list. -/
def digitsToNat (l : List Char) : Nat := l.foldl (fun n c => n * 10 + (c.toNat - 48)) 0

/-- Trim regex whitespace at both ends. -/
def trimWsL (l : List Char) : List Char :=
  ((l.dropWhile isWsChar).reverse.dropWhile isWsChar).reverse

/-- The numeric groups of a dotted release string, if it is one. -/
def releaseGroups (l : List Char) : Option (List Nat) :=
  let groups := splitDotsL l
  if groups.all allDigits then some (groups.map digitsToNat) else none

/-- Models packaging.version.parse on the inputs this program produces. -/
def parseVersion (s : String) : PackageVersion :=
  let t := trimWsL s.toList
  let t2 :=
    match t with
    | c :: rest => if c = 'v' || c = 'V' then rest else t
    | [] => t
  match releaseGroups t2 with
  | some parts => .release parts
  | none => .legacy s

/-- packaging compares release tuples with trailing zeros removed. -/
def stripTrail0 (l : List Nat) : List Nat :=
  (l.reverse.dropWhile (fun n => n = 0)).reverse

/-- Lexicographic order on numeric tuples, shorter prefix first. -/
def natListLt : List Nat → List Nat → Bool
  | [], [] => false
  | [], _ :: _ => true
  | _ :: _, [] => false
  | a :: as, b :: bs =>
    if a < b then true else if b < a then false else natListLt as bs

/-- The strict order of the version objects (the less-than used by the
source when comparing a detected version with the published one). -/
def versionLt : PackageVersion → PackageVersion → Bool
  | .release a, .release b => natListLt (stripTrail0 a) (stripTrail0 b)
  | .legacy _, .release _ => true
  | .release _, .legacy _ => false
  | .legacy a, .legacy b => decide (a < b)

/-- str of the version object as interpolated into the report line. -/
def versionToStr : PackageVersion → String
  | .release parts => String.intercalate "." (parts.map toString)
  | .legacy s => s

/-- Lookup in an insertion-ordered association list (a Python dict). -/
def lookupA {α : Type} : List (String × α) → String → Option α
  | [], _ => none
  | (k, v) :: rest, key => if k = key then some v else lookupA rest key

/-- Insert-or-replace in an insertion-ordered association list
(assignment into a Python dict). -/
def putA {α : Type} : List (String × α) → String → α → List (String × α)
  | [], key, v => [(key, v)]
  | (k, w) :: rest, key, v =>
    if k = key then (key, v) :: rest else (k, w) :: putA rest key v

/-- The filesystem as seen through the os calls the source makes.
readFile returns decoded text, modelling read_file (whose encoding
fallback is not exercised by any claim). -/
structure FileSystem where
  isDir : String → Bool
  isFile : String → Bool
  listdir : String → List String
  readFile : String → String

/-- os.path.exists: the path exists as a directory or as a file. -/
def FileSystem.pathExists (fs : FileSystem) (p : String) : Bool :=
  fs.isDir p || fs.isFile p

/-- os.path.join for the relative components the source uses. -/
def joinP (a b : String) : String := a ++ "/" ++ b

/-- The response to the HTTP GET of one plugin page: the ok flag of
requests, the raw body text, and the text of the first element of class
entry-meta as BeautifulSoup would return it (none when absent). -/
structure PluginPage where
  ok : Bool
  text : String
  entryMeta : Option String

/-- The remote world and clock for one run: the releases page parsed by
BeautifulSoup into the cell texts of the rows of each table, the
dateutil date parser as a total map to timestamps (seconds), a plugin
page per slug, and the current time in seconds. -/
structure RemoteWorld where
  releasesPage : List (List (List String))
  dateParse : String → Int
  pluginPage : String → PluginPage
  now : Int

/-- The two caches of a WordPressOnline instance. -/
structure WordPressOnline where
  wp_cache : List (String × Int)
  plugin_cache : List (String × (PackageVersion × Bool))
deriving DecidableEq

/-- The literal closed-plugin marker searched for in the raw body. -/
def closedMarker : String := "This plugin has been closed"

/-- One pass over the tables of the releases page.  A table with no row
makes table.find return None and the subsequent find_all raise
AttributeError; a first row with fewer than two cells makes the cell
indexing raise IndexError.  Both are modelled as Except errors. -/
def populateGo (dp : String → Int) :
    List (List (List String)) → List (String × Int) → Except String (List (String × Int))
  | [], m => .ok m
  | t :: ts, m =>
    match t with
    | [] => .error "AttributeError: NoneType has no attribute find_all"
    | r :: _ =>
      match r with
      | c0 :: c1 :: _ => populateGo dp ts (putA m c0 (dp c1))
      | _ => .error "IndexError: list index out of range"

/-- Parse the whole releases page into the version-to-date mapping. -/
def populateWpCache (tables : List (List (List String))) (dp : String → Int) :
    Except String (List (String × Int)) :=
  populateGo dp tables []

/-- WordPressOnline.get_wp_branch_last_version_release_date.  The third
component counts the HTTP GET requests this call performed. -/
def get_wp_branch_last_version_release_date (wp : WordPressOnline)
    (world : RemoteWorld) (wp_version : String) :
    Except String (Option Int × WordPressOnline × Nat) :=
  if wp.wp_cache.isEmpty then
    match populateWpCache world.releasesPage world.dateParse with
    | .error e => .error e
    | .ok m => .ok (lookupA m wp_version, ⟨m, wp.plugin_cache⟩, 1)
  else .ok (lookupA wp.wp_cache wp_version, wp, 0)

/-- WordPressOnline.get_plugin_last_version.  The last component counts
the HTTP GET requests this call performed. -/
def get_plugin_last_version (wp : WordPressOnline) (world : RemoteWorld)
    (plugin_slug : String) :
    (Option PackageVersion × Option Bool) × WordPressOnline × Nat :=
  match lookupA wp.plugin_cache plugin_slug with
  | some (v, c) => ((some v, some c), wp, 0)
  | none =>
    let req := world.pluginPage plugin_slug
    if req.ok then
      let closed := containsSub req.text closedMarker
      match req.entryMeta with
      | some em =>
        match findallVersionNum em with
        | v :: _ =>
          let plugin_version := parseVersion v
          ((some plugin_version, some closed),
            ⟨wp.wp_cache, putA wp.plugin_cache plugin_slug (plugin_version, closed)⟩, 1)
        | [] => ((none, none), wp, 1)
      | none => ((none, none), wp, 1)
    else ((none, none), wp, 1)

/-- is_wordpress: naive on-disk WordPress detection. -/
def is_wordpress (fs : FileSystem) (directory : String) : Bool :=
  fs.pathExists (joinP directory "wp-content") && fs.pathExists (joinP directory "wp-includes")

/-- The body of the header-scanning loop of check_plugin for one
directory entry.  The accumulator holds the plugin name and version
collected so far; a file whose name pattern matches overwrites the name,
and its version pattern, when it also matches, overwrites the version. -/
def extractHeaderStep (fs : FileSystem) (plugin_dir : String)
    (acc : Option String × Option String) (f : String) :
    Option String × Option String :=
  let php_file := joinP plugin_dir f
  if !fs.isFile php_file || !strEndsWith php_file ".php" then acc
  else
    let php_code := fs.readFile php_file
    match findallPluginName php_code with
    | [] => acc
    | n :: _ =>
      match findallVersionHeader php_code with
      | [] => (some n, acc.2)
      | v :: _ => (some n, some v)

/-- The header-scanning loop of check_plugin over a list of directory
entries. -/
def extractPluginHeader (fs : FileSystem) (plugin_dir : String)
    (files : List String) : Option String × Option String :=
  files.foldl (extractHeaderStep fs plugin_dir) (none, none)

/-- A directory entry that check_plugin actually scans: a regular file
whose path ends in .php. -/
def scannedPhp (fs : FileSystem) (plugin_dir f : String) : Bool :=
  fs.isFile (joinP plugin_dir f) && strEndsWith (joinP plugin_dir f) ".php"

/-- A scanned file in which both header patterns match. -/
def fileHasBoth (fs : FileSystem) (plugin_dir f : String) : Bool :=
  scannedPhp fs plugin_dir f
    && !(findallPluginName (fs.readFile (joinP plugin_dir f))).isEmpty
    && !(findallVersionHeader (fs.readFile (joinP plugin_dir f))).isEmpty

/-- A scanned file in which the name pattern matches. -/
def fileHasName (fs : FileSystem) (plugin_dir f : String) : Bool :=
  scannedPhp fs plugin_dir f
    && !(findallPluginName (fs.readFile (joinP plugin_dir f))).isEmpty

/-- check_plugin: returns the updated oracle state and the printed
lines.  The captures of the header patterns are nonempty strings, so the
Python falsiness test on them is the none test here. -/
def check_plugin (fs : FileSystem) (wp : WordPressOnline) (world : RemoteWorld)
    (plugins_dir plugin_slug : String) : WordPressOnline × List String :=
  let plugin_dir := joinP plugins_dir plugin_slug
  match extractPluginHeader fs plugin_dir (fs.listdir plugin_dir) with
  | (some _, some plugin_version_str) =>
    let r := get_plugin_last_version wp world plugin_slug
    let last_version := r.1.1
    let closed := r.1.2
    let wp2 := r.2.1
    let plugin_version := parseVersion plugin_version_str
    if closed = some true then
      (wp2, ["   " ++ plugin_slug ++ ": CLOSED"])
    else
      match last_version with
      | some lv =>
        if versionLt plugin_version lv then
          (wp2, ["   " ++ plugin_slug ++ ": updated required from "
              ++ versionToStr plugin_version ++ " to " ++ versionToStr lv])
        else (wp2, [])
      | none => (wp2, [])
  | _ => (wp, [])

/-- check_wordpress_plugins: returns the updated oracle state and the
printed lines. -/
def check_wordpress_plugins (fs : FileSystem) (wp : WordPressOnline)
    (world : RemoteWorld) (wp_dir : String) : WordPressOnline × List String :=
  let plugins_dir := joinP (joinP wp_dir "wp-content") "plugins"
  if !fs.pathExists plugins_dir then (wp, [])
  else
    let r := (fs.listdir plugins_dir).foldl
      (fun (p : WordPressOnline × List String) plugin_slug =>
        if !fs.isDir (joinP plugins_dir plugin_slug) then p
        else
          let q := check_plugin fs p.1 world plugins_dir plugin_slug
          (q.1, p.2 ++ q.2))
      (wp, [])
    (r.1, ("Plugins: " ++ plugins_dir) :: r.2)

/-- get_wp_version: extract the core version from the on-disk
installation. -/
def get_wp_version (fs : FileSystem) (wp_dir : String) : Option String :=
  let version_php := joinP (joinP wp_dir "wp-includes") "version.php"
  if fs.pathExists version_php then
    match findallWpVersion (fs.readFile version_php) with
    | [] => none
    | v :: _ => some v
  else none

/-- The separator line printed before each installation. -/
def sepLine : String := String.mk (List.replicate 40 '-')

/-- The body of the os.walk loop of check_wordpress for one visited
directory: nothing happens unless the detector accepts it; otherwise the
header is printed, the core version extracted (on failure the skipping
line is printed and the iteration ends), the core staleness is reported
and the plugins are checked. -/
def checkWordpressStep (fs : FileSystem) (wp : WordPressOnline)
    (world : RemoteWorld) (wp_dir : String) :
    Except String (WordPressOnline × List String) :=
  if !is_wordpress fs wp_dir then .ok (wp, [])
  else
    let hdr := [sepLine, "WordPress: " ++ wp_dir]
    match get_wp_version fs wp_dir with
    | none => .ok (wp, hdr ++ ["   wp-includes/version.php not found, skipping."])
    | some wp_version =>
      match get_wp_branch_last_version_release_date wp world wp_version with
      | .error e => .error e
      | .ok (release_date, wp1, _) =>
        let coreLines :=
          match release_date with
          | none => ["   This WordPress version is OUT-OF-DATE"]
          | some rd =>
            if 180 < Int.fdiv (world.now - rd) 86400 then
              ["   This WordPress version is probabily outdated"]
            else []
        let pr := check_wordpress_plugins fs wp1 world wp_dir
        .ok (pr.1, hdr ++ ["   Version: " ++ wp_version] ++ coreLines ++ pr.2)

/-- check_wordpress: a fresh WordPressOnline instance threaded through
the walk, whose visiting order over the tree rooted at the argument is
given as the list of directories os.walk yields. -/
def check_wordpress (fs : FileSystem) (world : RemoteWorld)
    (walkOrder : List String) : Except String (WordPressOnline × List String) :=
  walkOrder.foldlM
    (fun (p : WordPressOnline × List String) d =>
      match checkWordpressStep fs p.1 world d with
      | .error e => .error e
      | .ok (st, out) => .ok (st, p.2 ++ out))
    (⟨[], []⟩, [])

/-- A sequence of core-version lookups against one oracle instance,
returning the final state and the total number of HTTP GET requests of
the releases page. -/
def runCoreLookups (wp : WordPressOnline) (world : RemoteWorld) :
    List String → Except String (WordPressOnline × Nat)
  | [] => .ok (wp, 0)
  | q :: qs =>
    match get_wp_branch_last_version_release_date wp world q with
    | .error e => .error e
    | .ok (_, st, g) =>
      match runCoreLookups st world qs with
      | .error e => .error e
      | .ok (st2, n) => .ok (st2, g + n)

/-! Helper lemmas -/

/-- Looking up a key just inserted into the cache finds its value. -/
theorem lookupA_putA_same {α : Type} (m : List (String × α)) (k : String) (v : α) :
    lookupA (putA m k v) k = some v := by
  induction m with
  | nil => simp [putA, lookupA]
  | cons hd tl ih =>
    obtain ⟨k', w⟩ := hd
    by_cases h : k' = k
    · simp [putA, h, lookupA]
    · simp [putA, h, lookupA, ih]

/-! Claim C8: the on-disk detector -/

/-- Filesystem with an entry named wp-content that is a plain file, not a
directory, next to a wp-includes directory. -/
def fsC8 : FileSystem where
  isDir := fun p => p == "r" || p == "r/wp-includes"
  isFile := fun p => p == "r/wp-content"
  listdir := fun _ => []
  readFile := fun _ => ""

/-- C8 counterexample: is_wordpress accepts a directory whose wp-content
entry exists only as a regular file, so the detector is not equivalent to
the existence of both subdirectories. -/
theorem c8_counterexample :
    is_wordpress fsC8 "r" = true ∧ fsC8.isDir "r/wp-content" = false := by
  exact ⟨by decide, by decide⟩

/-- C8 (amended): the detector returns true exactly when entries named
wp-content and wp-includes both exist directly beneath the directory,
whatever their file type; in particular it accepts every directory with
both as (possibly empty) subdirectories and rejects every directory
lacking either name. -/
theorem c8_detector (fs : FileSystem) (dir : String) :
    (is_wordpress fs dir = true ↔
      (fs.pathExists (joinP dir "wp-content") = true
        ∧ fs.pathExists (joinP dir "wp-includes") = true))
    ∧ (fs.isDir (joinP dir "wp-content") = true →
        fs.isDir (joinP dir "wp-includes") = true → is_wordpress fs dir = true)
    ∧ ((fs.pathExists (joinP dir "wp-content") = false
        ∨ fs.pathExists (joinP dir "wp-includes") = false) →
        is_wordpress fs dir = false) := by
  refine ⟨?_, ?_, ?_⟩
  · simp [is_wordpress]
  · intro h1 h2
    simp [is_wordpress, FileSystem.pathExists, h1, h2]
  · intro h
    rcases h with h | h <;> simp [is_wordpress, h]

/-- Filesystem with both conventional subdirectories present and empty. -/
def fsC8w : FileSystem where
  isDir := fun p => p == "w" || p == "w/wp-content" || p == "w/wp-includes"
  isFile := fun _ => false
  listdir := fun _ => []
  readFile := fun _ => ""

/-- C8 witness: the amended detector theorem applied to a concrete
directory holding both subdirectories. -/
theorem c8_detector_witness : is_wordpress fsC8w "w" = true :=
  (c8_detector fsC8w "w").2.1 (by decide) (by decide)

/-! Claim C9: which plugin-directory entries are checked -/

/-- The inner loop of check_wordpress_plugins without the directory
guard, over a given list of entries. -/
def checkPluginsList (fs : FileSystem) (world : RemoteWorld) (plugins_dir : String)
    (acc : WordPressOnline × List String) (slugs : List String) :
    WordPressOnline × List String :=
  slugs.foldl
    (fun p plugin_slug =>
      let q := check_plugin fs p.1 world plugins_dir plugin_slug
      (q.1, p.2 ++ q.2))
    acc

/-- The guarded fold of check_wordpress_plugins equals the unguarded
fold over the entries that are directories. -/
theorem pluginsFoldFilter (fs : FileSystem) (world : RemoteWorld) (plugins_dir : String) :
    ∀ (l : List String) (acc : WordPressOnline × List String),
      l.foldl
        (fun p plugin_slug =>
          if !fs.isDir (joinP plugins_dir plugin_slug) then p
          else
            let q := check_plugin fs p.1 world plugins_dir plugin_slug
            (q.1, p.2 ++ q.2))
        acc
      = checkPluginsList fs world plugins_dir acc
          (l.filter (fun s => fs.isDir (joinP plugins_dir s))) := by
  intro l
  induction l with
  | nil => intro acc; rfl
  | cons hd tl ih =>
    intro acc
    cases h : fs.isDir (joinP plugins_dir hd) with
    | true =>
      simp only [List.foldl_cons, List.filter_cons, h, Bool.not_true,
        Bool.false_eq_true, if_false, if_true]
      rw [ih]
      rfl
    | false =>
      simp only [List.foldl_cons, List.filter_cons, h, Bool.not_false,
        Bool.false_eq_true, if_false, if_true]
      exact ih acc

/-- Filesystem whose plugins directory contains exactly one hidden
subdirectory holding a plugin with a complete header. -/
def fsC9 : FileSystem where
  isDir := fun p =>
    p == "r" || p == "r/wp-content" || p == "r/wp-content/plugins"
      || p == "r/wp-content/plugins/.hidden"
  isFile := fun p => p == "r/wp-content/plugins/.hidden/x.php"
  listdir := fun p =>
    if p == "r/wp-content/plugins" then [".hidden"]
    else if p == "r/wp-content/plugins/.hidden" then ["x.php"]
    else []
  readFile := fun p =>
    if p == "r/wp-content/plugins/.hidden/x.php" then
      "Plugin Name: Hidden\nVersion: 1.0"
    else ""

/-- Remote world whose every plugin page is a closed plugin with a
published version. -/
def worldC9 : RemoteWorld where
  releasesPage := []
  dateParse := fun _ => 0
  pluginPage := fun _ => ⟨true, "This plugin has been closed", some "Version: 1.0"⟩
  now := 0

/-- C9 counterexample: a hidden plugin subdirectory is checked and
reported, so hidden subdirectories are not excluded. -/
theorem c9_counterexample :
    (check_wordpress_plugins fsC9 ⟨[], []⟩ worldC9 "r").2
      = ["Plugins: r/wp-content/plugins", "   .hidden: CLOSED"] := by
  decide

/-- C9 (amended): when scanning the plugin directory of an installation,
every entry that is not a directory is skipped, and every subdirectory,
hidden ones included, is passed to the plugin check: the scan equals the
plain fold of check_plugin over exactly the entries that are
directories. -/
theorem c9_plugin_entries (fs : FileSystem) (wp : WordPressOnline)
    (world : RemoteWorld) (wp_dir : String)
    (h : fs.pathExists (joinP (joinP wp_dir "wp-content") "plugins") = true) :
    check_wordpress_plugins fs wp world wp_dir
      = (let plugins_dir := joinP (joinP wp_dir "wp-content") "plugins"
         let r := checkPluginsList fs world plugins_dir (wp, [])
            ((fs.listdir plugins_dir).filter (fun s => fs.isDir (joinP plugins_dir s)))
         (r.1, ("Plugins: " ++ plugins_dir) :: r.2)) := by
  simp only [check_wordpress_plugins, h, Bool.not_true, Bool.false_eq_true,
    if_false, pluginsFoldFilter fs world (joinP (joinP wp_dir "wp-content") "plugins")]

/-- C9 witness: the amended plugin-entry theorem applied to the concrete
filesystem with one hidden plugin subdirectory. -/
theorem c9_plugin_entries_witness :
    check_wordpress_plugins fsC9 ⟨[], []⟩ worldC9 "r"
      = (let plugins_dir := joinP (joinP "r" "wp-content") "plugins"
         let r := checkPluginsList fsC9 worldC9 plugins_dir (⟨[], []⟩, [])
            ((fsC9.listdir plugins_dir).filter (fun s => fsC9.isDir (joinP plugins_dir s)))
         (r.1, ("Plugins: " ++ plugins_dir) :: r.2)) :=
  c9_plugin_entries fsC9 ⟨[], []⟩ worldC9 "r" (by decide)

/-! Claim C2: malformed remote pages -/

/-- A releases-page table on which the parser raises: no row at all, or
a first row with fewer than two cells. -/
def malformedTable : List (List String) → Bool
  | [] => true
  | r :: _ => decide (r.length < 2)

/-- The one-pass parse errors whenever some table is malformed. -/
theorem populateGo_error (dp : String → Int) :
    ∀ (tables : List (List (List String))) (m : List (String × Int)),
      (∃ t ∈ tables, malformedTable t = true) →
      ∃ e, populateGo dp tables m = .error e := by
  intro tables
  induction tables with
  | nil => intro m h; simp at h
  | cons t ts ih =>
    intro m h
    match t with
    | [] => exact ⟨_, rfl⟩
    | [] :: _ => exact ⟨_, rfl⟩
    | [c] :: _ => exact ⟨_, rfl⟩
    | (c0 :: c1 :: _) :: _ =>
      rcases h with ⟨t', ht', hmal⟩
      rcases List.mem_cons.mp ht' with rfl | hmem
      · simp only [malformedTable, List.length_cons, decide_eq_true_eq] at hmal
        exact absurd hmal (by omega)
      · exact ih _ ⟨t', hmem, hmal⟩

/-- Remote world whose releases page holds a single table with no rows. -/
def worldC2 : RemoteWorld where
  releasesPage := [[]]
  dateParse := fun _ => 0
  pluginPage := fun _ => ⟨false, "", none⟩
  now := 0

/-- C2 counterexample: a core-version lookup against a releases page
whose only table has no first row raises (the embedded AttributeError)
instead of returning an unknown result. -/
theorem c2_counterexample :
    get_wp_branch_last_version_release_date ⟨[], []⟩ worldC2 "6.2"
      = .error "AttributeError: NoneType has no attribute find_all" := rfl

/-- C2 (amended): a malformed plugin page (no entry-meta region, or no
version pattern inside it) makes the plugin lookup return the unknown
pair, but a malformed core releases page (a table with no first row or
with fewer than two cells in it) makes the core lookup raise rather than
return an unknown result. -/
theorem c2_malformed_pages :
    (∀ (wp : WordPressOnline) (world : RemoteWorld) (slug : String),
      lookupA wp.plugin_cache slug = none →
      (world.pluginPage slug).ok = true →
      ((world.pluginPage slug).entryMeta = none
        ∨ ∀ em, (world.pluginPage slug).entryMeta = some em → findallVersionNum em = []) →
      (get_plugin_last_version wp world slug).1 = (none, none))
    ∧ (∀ (wp : WordPressOnline) (world : RemoteWorld) (v : String),
      wp.wp_cache = [] →
      (∃ t ∈ world.releasesPage, malformedTable t = true) →
      ∃ e, get_wp_branch_last_version_release_date wp world v = .error e) := by
  constructor
  · intro wp world slug h0 h1 h2
    simp only [get_plugin_last_version, h0, h1, if_true]
    rcases h2 with h2 | h2
    · simp [h2]
    · cases hem : (world.pluginPage slug).entryMeta with
      | none => simp
      | some em => simp [h2 em hem]
  · intro wp world v h0 h1
    obtain ⟨e, he⟩ := populateGo_error world.dateParse world.releasesPage [] h1
    refine ⟨e, ?_⟩
    simp [get_wp_branch_last_version_release_date, h0, populateWpCache, he]

/-- Remote world for the C2 witness: an empty-bodied table on the
releases page, and a plugin page that is ok but has no entry-meta. -/
def worldC2w : RemoteWorld where
  releasesPage := [[]]
  dateParse := fun _ => 0
  pluginPage := fun _ => ⟨true, "", none⟩
  now := 0

/-- C2 witness: the amended theorem applied to a concrete ok plugin page
without entry-meta and to a concrete releases page with a rowless
table. -/
theorem c2_malformed_pages_witness :
    (get_plugin_last_version ⟨[], []⟩ worldC2w "foo").1 = (none, none)
    ∧ ∃ e, get_wp_branch_last_version_release_date ⟨[], []⟩ worldC2w "6.2" = .error e :=
  ⟨c2_malformed_pages.1 ⟨[], []⟩ worldC2w "foo" rfl rfl (Or.inl rfl),
   c2_malformed_pages.2 ⟨[], []⟩ worldC2w "6.2" rfl ⟨[], by decide, by decide⟩⟩

/-! Claim C5: the releases page is fetched once -/

/-- A lookup against a nonempty core cache performs no fetch and leaves
the oracle unchanged, and so does a whole run of such lookups. -/
theorem runCore_cached (world : RemoteWorld) :
    ∀ (qs : List String) (st : WordPressOnline), st.wp_cache ≠ [] →
      runCoreLookups st world qs = .ok (st, 0) := by
  intro qs
  induction qs with
  | nil => intro st _; rfl
  | cons q qs ih =>
    intro st h
    have hne : st.wp_cache.isEmpty = false := by
      cases hc : st.wp_cache with
      | nil => exact absurd hc h
      | cons a l => rfl
    simp only [runCoreLookups, get_wp_branch_last_version_release_date, hne,
      Bool.false_eq_true, if_false, ih st h]

/-- C5 counterexample: against a releases page with no tables the parse
succeeds with an empty mapping, the cache stays empty, and two
consecutive core lookups perform two fetches of the page. -/
def worldC5 : RemoteWorld where
  releasesPage := []
  dateParse := fun _ => 0
  pluginPage := fun _ => ⟨false, "", none⟩
  now := 0

/-- C5 counterexample: two lookups, two fetches. -/
theorem c5_counterexample :
    runCoreLookups ⟨[], []⟩ worldC5 ["6.2", "6.2"] = .ok (⟨[], []⟩, 2) := rfl

/-- C5 (amended): provided the first fetch of the releases page
populates at least one entry, the page is fetched exactly once per
oracle instance however many core lookups are made: the whole mapping is
populated in that one pass and every later lookup reuses it without
fetching.  When the parse yields an empty mapping the cache stays empty
and the next lookup fetches the page again. -/
theorem c5_core_fetch_once (wp : WordPressOnline) (world : RemoteWorld)
    (m : List (String × Int))
    (h1 : wp.wp_cache = [])
    (h2 : populateWpCache world.releasesPage world.dateParse = .ok m)
    (h3 : m ≠ []) :
    (∀ (q : String) (qs : List String),
      runCoreLookups wp world (q :: qs) = .ok (⟨m, wp.plugin_cache⟩, 1))
    ∧ (∀ (qs : List String) (st : WordPressOnline), st.wp_cache ≠ [] →
        runCoreLookups st world qs = .ok (st, 0)) := by
  constructor
  · intro q qs
    have hem : wp.wp_cache.isEmpty = true := by simp [h1]
    have hrest : runCoreLookups (⟨m, wp.plugin_cache⟩ : WordPressOnline) world qs
        = .ok (⟨m, wp.plugin_cache⟩, 0) := runCore_cached world qs _ h3
    simp only [runCoreLookups, get_wp_branch_last_version_release_date, hem,
      if_true, h2, hrest]
  · exact fun qs st h => runCore_cached world qs st h

/-- Remote world for the C5 witness: one table, one row, two cells. -/
def worldC5w : RemoteWorld where
  releasesPage := [[["6.2", "d"]]]
  dateParse := fun _ => 5
  pluginPage := fun _ => ⟨false, "", none⟩
  now := 0

/-- C5 witness: the fetch-once theorem applied to a concrete world with
one release row and two consecutive lookups. -/
theorem c5_core_fetch_once_witness :
    runCoreLookups ⟨[], []⟩ worldC5w ["6.2", "6.3"] = .ok (⟨[("6.2", 5)], []⟩, 1) :=
  (c5_core_fetch_once ⟨[], []⟩ worldC5w [("6.2", 5)] rfl rfl (by decide)).1 "6.2" ["6.3"]

/-! Claim C3: the plugin header extractor -/

/-- One scan step: the collected version is present afterwards exactly
when it was present before or both patterns match in this file. -/
theorem extractStepSnd (fs : FileSystem) (pd : String)
    (acc : Option String × Option String) (f : String) :
    ((extractHeaderStep fs pd acc f).2).isSome
      = (acc.2.isSome || fileHasBoth fs pd f) := by
  unfold extractHeaderStep fileHasBoth scannedPhp
  cases hIsFile : fs.isFile (joinP pd f) with
  | false => simp [hIsFile]
  | true =>
    cases hEnds : strEndsWith (joinP pd f) ".php" with
    | false => simp [hIsFile, hEnds]
    | true =>
      cases hn : findallPluginName (fs.readFile (joinP pd f)) with
      | nil => simp [hIsFile, hEnds, hn]
      | cons n ns =>
        cases hv : findallVersionHeader (fs.readFile (joinP pd f)) with
        | nil => simp [hIsFile, hEnds, hn, hv]
        | cons v vs => simp [hIsFile, hEnds, hn, hv]

/-- After the whole scan the version is present exactly when some
scanned file matches both patterns. -/
theorem extractFoldSnd (fs : FileSystem) (pd : String) :
    ∀ (files : List String) (acc : Option String × Option String),
      ((files.foldl (extractHeaderStep fs pd) acc).2).isSome
        = (acc.2.isSome || files.any (fun f => fileHasBoth fs pd f)) := by
  intro files
  induction files with
  | nil => intro acc; simp
  | cons hd tl ih =>
    intro acc
    simp only [List.foldl_cons, List.any_cons, ih, extractStepSnd, Bool.or_assoc]

/-- C3: the header extractor scans every top-level php file without
stopping at the first match; when the last scanned file matches both
header patterns, its first Plugin Name match and its first Version match
are the ones kept, whatever any earlier file contained; the collected
version exists exactly when some scanned file matches both patterns; and
when no scanned file matches both, check_plugin skips the plugin
entirely, printing nothing and leaving the oracle untouched. -/
theorem c3_header_extraction (fs : FileSystem) :
    (∀ (pd : String) (files : List String) (g n v : String) (ns vs : List String),
      fs.isFile (joinP pd g) = true →
      strEndsWith (joinP pd g) ".php" = true →
      findallPluginName (fs.readFile (joinP pd g)) = n :: ns →
      findallVersionHeader (fs.readFile (joinP pd g)) = v :: vs →
      extractPluginHeader fs pd (files ++ [g]) = (some n, some v))
    ∧ (∀ (pd : String) (files : List String),
      ((extractPluginHeader fs pd files).2).isSome
        = files.any (fun f => fileHasBoth fs pd f))
    ∧ (∀ (wp : WordPressOnline) (world : RemoteWorld) (plugins_dir slug : String),
      (fs.listdir (joinP plugins_dir slug)).any
          (fun f => fileHasBoth fs (joinP plugins_dir slug) f) = false →
      check_plugin fs wp world plugins_dir slug = (wp, [])) := by
  refine ⟨?_, ?_, ?_⟩
  · intro pd files g n v ns vs h1 h2 h3 h4
    unfold extractPluginHeader
    rw [List.foldl_append]
    simp [List.foldl_cons, extractHeaderStep, h1, h2, h3, h4]
  · intro pd files
    simpa using extractFoldSnd fs pd files (none, none)
  · intro wp world plugins_dir slug h
    have hs : ((extractPluginHeader fs (joinP plugins_dir slug)
        (fs.listdir (joinP plugins_dir slug))).2).isSome = false := by
      unfold extractPluginHeader
      rw [extractFoldSnd fs (joinP plugins_dir slug)
        (fs.listdir (joinP plugins_dir slug)) (none, none), h]
      simp
    simp only [check_plugin]
    cases hE : extractPluginHeader fs (joinP plugins_dir slug)
        (fs.listdir (joinP plugins_dir slug)) with
    | mk a b =>
      rw [hE] at hs
      cases b with
      | none => cases a with
        | none => rfl
        | some x => rfl
      | some y => simp at hs

/-- Filesystem with one plugin directory p/foo holding two php files
that both carry a complete header, the second with version 2.0. -/
def fsC3 : FileSystem where
  isDir := fun p => p == "p" || p == "p/foo"
  isFile := fun p => p == "p/foo/a.php" || p == "p/foo/b.php"
  listdir := fun p => if p == "p/foo" then ["a.php", "b.php"] else []
  readFile := fun p =>
    if p == "p/foo/a.php" then "Plugin Name: Foo\nVersion: 1.0"
    else if p == "p/foo/b.php" then "Plugin Name: Foo\nVersion: 2.0"
    else ""

/-- C3 witness: on two files that both match, the extractor keeps the
later file, returning version 2.0, by the last-file-wins part of the
theorem applied at the concrete filesystem. -/
theorem c3_header_extraction_witness :
    extractPluginHeader fsC3 "p/foo" ["a.php", "b.php"] = (some "Foo", some "2.0") :=
  (c3_header_extraction fsC3).1 "p/foo" ["a.php"] "b.php" "Foo" "2.0" [] []
    (by decide) (by decide) (by decide) (by decide)

/-! Claim C4: the plugin cache policy -/

/-- C4: a plugin lookup that is not served from the cache performs one
HTTP GET; when it succeeds with a found version it caches the pair and a
repeated lookup is answered from the cache with no further GET; when it
fails it returns the unknown pair and leaves the state unchanged, so a
repeated lookup fetches again. -/
theorem c4_plugin_cache (wp : WordPressOnline) (world : RemoteWorld) (slug : String)
    (h0 : lookupA wp.plugin_cache slug = none) :
    (∀ (pv : PackageVersion) (cl : Bool) (wp2 : WordPressOnline) (g : Nat),
      get_plugin_last_version wp world slug = ((some pv, some cl), wp2, g) →
      g = 1 ∧ lookupA wp2.plugin_cache slug = some (pv, cl)
        ∧ get_plugin_last_version wp2 world slug = ((some pv, some cl), wp2, 0))
    ∧ (∀ (wp2 : WordPressOnline) (g : Nat),
      get_plugin_last_version wp world slug = ((none, none), wp2, g) →
      wp2 = wp ∧ g = 1) := by
  cases hok : (world.pluginPage slug).ok with
  | false =>
    have hval : get_plugin_last_version wp world slug = ((none, none), wp, 1) := by
      simp [get_plugin_last_version, h0, hok]
    constructor
    · intro pv cl wp2 g hEq
      rw [hval] at hEq
      simp at hEq
    · intro wp2 g hEq
      rw [hval] at hEq
      simp only [Prod.mk.injEq] at hEq
      exact ⟨hEq.2.1.symm, hEq.2.2.symm⟩
  | true =>
    cases hem : (world.pluginPage slug).entryMeta with
    | none =>
      have hval : get_plugin_last_version wp world slug = ((none, none), wp, 1) := by
        simp [get_plugin_last_version, h0, hok, hem]
      constructor
      · intro pv cl wp2 g hEq
        rw [hval] at hEq
        simp at hEq
      · intro wp2 g hEq
        rw [hval] at hEq
        simp only [Prod.mk.injEq] at hEq
        exact ⟨hEq.2.1.symm, hEq.2.2.symm⟩
    | some em =>
      cases hvs : findallVersionNum em with
      | nil =>
        have hval : get_plugin_last_version wp world slug = ((none, none), wp, 1) := by
          simp [get_plugin_last_version, h0, hok, hem, hvs]
        constructor
        · intro pv cl wp2 g hEq
          rw [hval] at hEq
          simp at hEq
        · intro wp2 g hEq
          rw [hval] at hEq
          simp only [Prod.mk.injEq] at hEq
          exact ⟨hEq.2.1.symm, hEq.2.2.symm⟩
      | cons v rest =>
        have hval : get_plugin_last_version wp world slug
            = ((some (parseVersion v),
                some (containsSub (world.pluginPage slug).text closedMarker)),
               ⟨wp.wp_cache, putA wp.plugin_cache slug
                  (parseVersion v,
                   containsSub (world.pluginPage slug).text closedMarker)⟩, 1) := by
          simp [get_plugin_last_version, h0, hok, hem, hvs]
        constructor
        · intro pv cl wp2 g hEq
          rw [hval] at hEq
          simp only [Prod.mk.injEq, Option.some.injEq] at hEq
          obtain ⟨⟨hpv, hcl⟩, hwp2, hg⟩ := hEq
          subst hpv; subst hcl; subst hwp2; subst hg
          refine ⟨rfl, lookupA_putA_same wp.plugin_cache slug _, ?_⟩
          simp [get_plugin_last_version, lookupA_putA_same wp.plugin_cache slug _]
        · intro wp2 g hEq
          rw [hval] at hEq
          simp at hEq

/-- Remote world for the C4 witness whose plugin pages are all ok with a
version 2.0 in the entry-meta region. -/
def worldC4 : RemoteWorld where
  releasesPage := []
  dateParse := fun _ => 0
  pluginPage := fun _ => ⟨true, "", some "Version: 2.0"⟩
  now := 0

/-- Remote world for the C4 witness whose plugin pages all fail. -/
def worldC4f : RemoteWorld where
  releasesPage := []
  dateParse := fun _ => 0
  pluginPage := fun _ => ⟨false, "", none⟩
  now := 0

/-- C4 witness: the cache theorem applied once to a successful lookup
and once to a failing one, with everything concrete. -/
theorem c4_plugin_cache_witness :
    (1 = 1
      ∧ lookupA [("foo", (PackageVersion.release [2, 0], false))] "foo"
          = some (PackageVersion.release [2, 0], false)
      ∧ get_plugin_last_version ⟨[], [("foo", (PackageVersion.release [2, 0], false))]⟩
          worldC4 "foo"
          = ((some (PackageVersion.release [2, 0]), some false),
             ⟨[], [("foo", (PackageVersion.release [2, 0], false))]⟩, 0))
    ∧ ((⟨[], []⟩ : WordPressOnline) = ⟨[], []⟩ ∧ 1 = 1) :=
  ⟨(c4_plugin_cache ⟨[], []⟩ worldC4 "foo" rfl).1 (PackageVersion.release [2, 0]) false
      ⟨[], [("foo", (PackageVersion.release [2, 0], false))]⟩ 1 (by decide),
   (c4_plugin_cache ⟨[], []⟩ worldC4f "foo" rfl).2 ⟨[], []⟩ 1 (by decide)⟩

/-! Claim C10: closed marker without a version -/

/-- C10: when a plugin page is fetched successfully and contains the
literal closed-plugin marker but its entry-meta region yields no version
match (or is absent), the lookup returns the unknown pair with nothing
cached, and check_plugin for that slug prints nothing at all, in
particular no CLOSED line. -/
theorem c10_closed_without_version (wp : WordPressOnline) (world : RemoteWorld)
    (slug : String)
    (h0 : lookupA wp.plugin_cache slug = none)
    (h1 : (world.pluginPage slug).ok = true)
    (_h2 : containsSub (world.pluginPage slug).text closedMarker = true)
    (h3 : (world.pluginPage slug).entryMeta = none
      ∨ ∀ em, (world.pluginPage slug).entryMeta = some em → findallVersionNum em = []) :
    get_plugin_last_version wp world slug = ((none, none), wp, 1)
    ∧ ∀ (fs : FileSystem) (plugins_dir : String),
        check_plugin fs wp world plugins_dir slug = (wp, []) := by
  have hres : get_plugin_last_version wp world slug = ((none, none), wp, 1) := by
    rcases h3 with h3 | h3
    · simp [get_plugin_last_version, h0, h1, h3]
    · cases hem : (world.pluginPage slug).entryMeta with
      | none => simp [get_plugin_last_version, h0, h1, hem]
      | some em => simp [get_plugin_last_version, h0, h1, hem, h3 em hem]
  refine ⟨hres, ?_⟩
  intro fs plugins_dir
  simp only [check_plugin]
  cases hE : extractPluginHeader fs (joinP plugins_dir slug)
      (fs.listdir (joinP plugins_dir slug)) with
  | mk a b =>
    cases a with
    | none => cases b with
      | none => rfl
      | some y => rfl
    | some x => cases b with
      | none => rfl
      | some y => simp [hres]

/-- Remote world whose plugin pages carry the closed marker but no
version in the entry-meta text. -/
def worldC10 : RemoteWorld where
  releasesPage := []
  dateParse := fun _ => 0
  pluginPage := fun _ => ⟨true, "xx This plugin has been closed yy", some "no version here"⟩
  now := 0

/-- Trivial filesystem used to instantiate the C10 conclusion. -/
def fsC10 : FileSystem where
  isDir := fun _ => false
  isFile := fun _ => false
  listdir := fun _ => []
  readFile := fun _ => ""

/-- C10 witness: the theorem applied to a concrete closed-marker page
without a version. -/
theorem c10_closed_without_version_witness :
    get_plugin_last_version ⟨[], []⟩ worldC10 "p" = ((none, none), ⟨[], []⟩, 1)
    ∧ ∀ (fs : FileSystem) (plugins_dir : String),
        check_plugin fs ⟨[], []⟩ worldC10 plugins_dir "p" = (⟨[], []⟩, []) :=
  c10_closed_without_version ⟨[], []⟩ worldC10 "p" rfl rfl (by decide)
    (Or.inr (fun em hem => by
      injection (show some "no version here" = some em from hem) with h
      rw [← h]
      decide))

/-! Claim C1: a missing core version skips the whole installation -/

/-- C1 (amended): when the walker finds a WordPress installation whose
core-version extraction fails, the reporter prints the not-found
skipping line and skips everything further for that installation,
including the plugin scan: the oracle is untouched and no plugin line is
printed. -/
theorem c1_missing_core_version (fs : FileSystem) (wp : WordPressOnline)
    (world : RemoteWorld) (dir : String)
    (h1 : is_wordpress fs dir = true)
    (h2 : get_wp_version fs dir = none) :
    checkWordpressStep fs wp world dir = Except.ok
      (wp, [sepLine, "WordPress: " ++ dir,
            "   wp-includes/version.php not found, skipping."]) := by
  simp [checkWordpressStep, h1, h2]

/-- Filesystem with a WordPress root r that has no version.php but does
have a plugins directory holding one complete plugin. -/
def fsC1 : FileSystem where
  isDir := fun p =>
    p == "r" || p == "r/wp-content" || p == "r/wp-includes"
      || p == "r/wp-content/plugins" || p == "r/wp-content/plugins/foo"
  isFile := fun p => p == "r/wp-content/plugins/foo/foo.php"
  listdir := fun p =>
    if p == "r/wp-content/plugins" then ["foo"]
    else if p == "r/wp-content/plugins/foo" then ["foo.php"]
    else []
  readFile := fun p =>
    if p == "r/wp-content/plugins/foo/foo.php" then
      "Plugin Name: Foo\nVersion: 1.0"
    else ""

/-- Remote world whose plugin pages report a closed plugin with a
version. -/
def worldC1 : RemoteWorld where
  releasesPage := []
  dateParse := fun _ => 0
  pluginPage := fun _ => ⟨true, "This plugin has been closed", some "Version: 1.0"⟩
  now := 0

/-- C1 counterexample: on an installation without version.php the walk
body prints only the skipping lines and does not scan the plugins, even
though the plugins directory exists and a direct plugin scan of the same
installation would have reported a closed plugin. -/
theorem c1_counterexample :
    checkWordpressStep fsC1 ⟨[], []⟩ worldC1 "r" = Except.ok
      ((⟨[], []⟩ : WordPressOnline),
        [sepLine, "WordPress: r", "   wp-includes/version.php not found, skipping."])
    ∧ (check_wordpress_plugins fsC1 ⟨[], []⟩ worldC1 "r").2
      = ["Plugins: r/wp-content/plugins", "   foo: CLOSED"] :=
  ⟨rfl, by decide⟩

/-- C1 witness: the amended theorem applied to the concrete installation
without a version.php. -/
theorem c1_missing_core_version_witness :
    checkWordpressStep fsC1 ⟨[], []⟩ worldC1 "r" = Except.ok
      ((⟨[], []⟩ : WordPressOnline),
        [sepLine, "WordPress: r", "   wp-includes/version.php not found, skipping."]) :=
  c1_missing_core_version fsC1 ⟨[], []⟩ worldC1 "r" (by decide) (by decide)

/-! Claim C6: core staleness reporting -/

/-- C6: for an installation with a detected core version, the walk body
prints the OUT-OF-DATE line exactly when the populated mapping has no
entry for the exact version string; otherwise it prints the
probably-outdated line (in its literal spelling) exactly when the
release date lies more than 180 whole days before the current moment,
and nothing further for the core otherwise; the plugin scan output
follows either way. -/
theorem c6_core_staleness_report (fs : FileSystem) (wp : WordPressOnline)
    (world : RemoteWorld) (dir v : String) (m : List (String × Int))
    (h1 : is_wordpress fs dir = true)
    (h2 : get_wp_version fs dir = some v)
    (h3 : wp.wp_cache = [])
    (h4 : populateWpCache world.releasesPage world.dateParse = Except.ok m) :
    checkWordpressStep fs wp world dir = Except.ok
      ((check_wordpress_plugins fs ⟨m, wp.plugin_cache⟩ world dir).1,
        [sepLine, "WordPress: " ++ dir, "   Version: " ++ v]
          ++ (match lookupA m v with
              | none => ["   This WordPress version is OUT-OF-DATE"]
              | some rd =>
                if 180 < Int.fdiv (world.now - rd) 86400 then
                  ["   This WordPress version is probabily outdated"]
                else [])
          ++ (check_wordpress_plugins fs ⟨m, wp.plugin_cache⟩ world dir).2) := by
  have hem : wp.wp_cache.isEmpty = true := by simp [h3]
  simp [checkWordpressStep, h1, h2, get_wp_branch_last_version_release_date, hem, h4]

/-- Filesystem with a WordPress root holding a version.php declaring
version 6.2 and no plugins directory. -/
def fsC6 : FileSystem where
  isDir := fun p => p == "r" || p == "r/wp-content" || p == "r/wp-includes"
  isFile := fun p => p == "r/wp-includes/version.php"
  listdir := fun _ => []
  readFile := fun p =>
    if p == "r/wp-includes/version.php" then "<?php\n$wp_version = '6.2';\n"
    else ""

/-- Remote world for the C6 witness: the releases page lists 6.2 with a
date parsed to timestamp 0, and the clock stands 200 days later. -/
def worldC6 : RemoteWorld where
  releasesPage := [[["6.2", "d"]]]
  dateParse := fun _ => 0
  pluginPage := fun _ => ⟨false, "", none⟩
  now := 200 * 86400

/-- C6 witness: the staleness theorem applied to a concrete installation
whose version is listed but 200 days old, producing the
probably-outdated line. -/
theorem c6_core_staleness_report_witness :
    checkWordpressStep fsC6 ⟨[], []⟩ worldC6 "r" = Except.ok
      ((⟨[("6.2", 0)], []⟩ : WordPressOnline),
        [sepLine, "WordPress: r", "   Version: 6.2",
         "   This WordPress version is probabily outdated"]) :=
  c6_core_staleness_report fsC6 ⟨[], []⟩ worldC6 "r" "6.2" [("6.2", 0)]
    (by decide) (by decide) rfl rfl

/-! Claim C7: the plugin update report line -/

/-- C7 (amended): for a plugin whose header extraction succeeded and
whose oracle lookup is not closed, the reporter prints the line with the
literal wording updated required from X to Y exactly when a latest
version is known and strictly greater than the detected one under the
lenient version order, and prints nothing for the plugin otherwise. -/
theorem c7_plugin_update_report (fs : FileSystem) (wp : WordPressOnline)
    (world : RemoteWorld) (plugins_dir slug nm vs : String)
    (lastOpt : Option PackageVersion) (closedOpt : Option Bool)
    (wp2 : WordPressOnline) (g : Nat)
    (hx : extractPluginHeader fs (joinP plugins_dir slug)
        (fs.listdir (joinP plugins_dir slug)) = (some nm, some vs))
    (hr : get_plugin_last_version wp world slug = ((lastOpt, closedOpt), wp2, g))
    (hc : closedOpt ≠ some true) :
    (∀ lv, lastOpt = some lv → versionLt (parseVersion vs) lv = true →
      check_plugin fs wp world plugins_dir slug
        = (wp2, ["   " ++ slug ++ ": updated required from "
            ++ versionToStr (parseVersion vs) ++ " to " ++ versionToStr lv]))
    ∧ ((lastOpt = none ∨ ∃ lv, lastOpt = some lv ∧ versionLt (parseVersion vs) lv = false) →
      check_plugin fs wp world plugins_dir slug = (wp2, [])) := by
  constructor
  · intro lv hlv hlt
    subst hlv
    simp [check_plugin, hx, hr, hc, hlt]
  · intro hcase
    rcases hcase with hnone | ⟨lv, hlv, hge⟩
    · subst hnone
      simp [check_plugin, hx, hr, hc]
    · subst hlv
      simp [check_plugin, hx, hr, hc, hge]

/-- Filesystem with one plugin directory p/foo whose header declares
version 1.0. -/
def fsC7 : FileSystem where
  isDir := fun p => p == "p" || p == "p/foo"
  isFile := fun p => p == "p/foo/foo.php"
  listdir := fun p => if p == "p/foo" then ["foo.php"] else []
  readFile := fun p =>
    if p == "p/foo/foo.php" then "Plugin Name: Foo\nVersion: 1.0" else ""

/-- Remote world whose plugin pages are open and publish version 2.0. -/
def worldC7 : RemoteWorld where
  releasesPage := []
  dateParse := fun _ => 0
  pluginPage := fun _ => ⟨true, "", some "Version: 2.0"⟩
  now := 0

/-- C7 counterexample: the line actually emitted for an outdated plugin
reads updated required, and the wording update required claimed by the
specification occurs nowhere in it. -/
theorem c7_counterexample :
    (check_plugin fsC7 ⟨[], []⟩ worldC7 "p" "foo").2
      = ["   foo: updated required from 1.0 to 2.0"]
    ∧ containsSub "   foo: updated required from 1.0 to 2.0" "update required" = false :=
  ⟨by decide, by decide⟩

/-- C7 witness: the amended report theorem applied to the concrete
outdated plugin. -/
theorem c7_plugin_update_report_witness :
    check_plugin fsC7 ⟨[], []⟩ worldC7 "p" "foo"
      = (⟨[], [("foo", (PackageVersion.release [2, 0], false))]⟩,
         ["   foo: updated required from 1.0 to 2.0"]) :=
  (c7_plugin_update_report fsC7 ⟨[], []⟩ worldC7 "p" "foo" "Foo" "1.0"
      (some (PackageVersion.release [2, 0])) (some false)
      ⟨[], [("foo", (PackageVersion.release [2, 0], false))]⟩ 1
      (by decide) (by decide) (by decide)).1
    (PackageVersion.release [2, 0]) rfl (by decide)

end WpCheck
